import Mathlib

/-!
# Verification of the SlideSpark AI presentation-generator state logic

Shallow embedding of the client-side state transitions of `src/index.tsx`:
the slide data model, the regeneration actions, the share encoder/decoder,
drag-reorder, slide deletion, the generation pipeline's progress accounting
and error policy, and the enhance-wording parser.

Remote calls (text/image generation) are modelled as oracles: their outcomes
are parameters of the embedded transition functions, and the embedding only
captures what the code does with each possible outcome.
-/

namespace SlideSpark

/-- `ChartData.type` field: `'bar' | 'line' | 'pie'` (src/index.tsx:21). -/
inductive ChartType
  | bar
  | line
  | pie
deriving DecidableEq

/-- One element of `ChartData.datasets` (src/index.tsx:23-26).  JS numbers are
modelled as `Int`; no claim computes with the numeric values. -/
structure ChartDataset where
  label : String
  data : List Int
deriving DecidableEq

/-- `interface ChartData` (src/index.tsx:20-27). -/
structure ChartData where
  type : ChartType
  labels : List String
  datasets : List ChartDataset
deriving DecidableEq

/-- `type SlideLayout = 'text-left' | 'text-right' | 'image-full'` (src/index.tsx:18). -/
inductive SlideLayout
  | textLeft
  | textRight
  | imageFull
deriving DecidableEq

/-- `interface Slide` (src/index.tsx:29-37).  The optional JS fields
(`imageUrl?`, `speakerNotes?`, `chartData?`) become `Option`; `none` is the
absent / `undefined` value. -/
structure Slide where
  title : String
  content : List String
  imagePrompt : String
  imageUrl : Option String := none
  speakerNotes : Option String := none
  layout : SlideLayout
  chartData : Option ChartData := none
deriving DecidableEq

/-- `interface CustomTheme` (src/index.tsx:46-56).  The five fixed color
roles are modelled positionally. -/
structure CustomTheme where
  id : String
  name : String
  bgPrimary : String
  bgSecondary : String
  textPrimary : String
  textSecondary : String
  accentPrimary : String
deriving DecidableEq

/-- `type AppStep = 'prompt' | 'outline' | 'loading' | 'presentation'`
(src/index.tsx:16). -/
inductive AppStep
  | prompt
  | outline
  | loading
  | presentation
deriving DecidableEq

/-- The sentinel strings the code stores in `imageUrl` to denote non-image
states: `'pending'` (src/index.tsx:320), `'loading'` (355, 400, 484) and
`'error'` (376, 420). -/
def isImageSentinel (s : String) : Bool :=
  s = "pending" || s = "loading" || s = "error"

/-- A slide carries an actual image payload when `imageUrl` holds a string
that is not one of the sentinel values. -/
def hasImagePayload (s : Slide) : Bool :=
  match s.imageUrl with
  | none => false
  | some u => !isImageSentinel u

/-- Mutual-exclusivity invariant: a slide never carries both `chartData` and
an actual image payload in `imageUrl`. -/
def visualInvariant (s : Slide) : Bool :=
  !(hasImagePayload s && s.chartData.isSome)

/-- The shape of a parsed Stage-2 / regenerate-content response
(`singleSlideSchema`, src/index.tsx:70-118): bullet content, an image
prompt, and an optional chart. -/
structure ContentResp where
  title : String
  content : List String
  imagePrompt : String
  chart : Option ChartData
deriving DecidableEq

/-- The per-slide state updates performed by the regeneration actions
(`handleRegenerateImage` src/index.tsx:395-426, `handleRegenerateChart`
428-464, `handleRegenerateSlideContent` 466-497).  Each constructor is one
`setSlides` update applied to the target slide. -/
inductive RegenOp
  /-- `handleRegenerateImage` entry: `newSlides[index].imageUrl = 'loading'`. -/
  | imageStart
  /-- `handleRegenerateImage` success: `updated[index].imageUrl = newImageUrl;
  updated[index].chartData = undefined`. -/
  | imageSuccess (url : String)
  /-- `handleRegenerateImage` failure: `updated[index].imageUrl = 'error'`. -/
  | imageFailure
  /-- `handleRegenerateChart` success: `updated[index].chartData = chart;
  updated[index].imageUrl = undefined`. -/
  | chartSuccess (c : ChartData)
  /-- `handleRegenerateSlideContent` content application:
  `updated[index] = { ...updated[index], ...newSlideContent, chartData: chart,
  imageUrl: chart ? undefined : 'loading' }`. -/
  | contentApply (r : ContentResp)

/-- Apply one regeneration update to a slide, translated branch by branch
from the `setSlides` updaters in src/index.tsx. -/
def applyRegenOp : RegenOp → Slide → Slide
  | .imageStart, s => { s with imageUrl := some "loading" }
  | .imageSuccess url, s => { s with imageUrl := some url, chartData := none }
  | .imageFailure, s => { s with imageUrl := some "error" }
  | .chartSuccess c, s => { s with chartData := some c, imageUrl := none }
  | .contentApply r, s =>
      { s with
        title := r.title
        content := r.content
        imagePrompt := r.imagePrompt
        chartData := r.chart
        imageUrl := if r.chart.isSome then none else some "loading" }

end SlideSpark

namespace SlideSpark

/-- Helper: `imageSuccess` is the only op that installs a payload, and it
clears the chart, so every regeneration update re-establishes the invariant
outright. -/
theorem applyRegenOp_visualInvariant (op : RegenOp) (s : Slide) :
    visualInvariant (applyRegenOp op s) = true := by
  cases op with
  | imageStart => simp [applyRegenOp, visualInvariant, hasImagePayload, isImageSentinel]
  | imageSuccess url => simp [applyRegenOp, visualInvariant, hasImagePayload]
  | imageFailure => simp [applyRegenOp, visualInvariant, hasImagePayload, isImageSentinel]
  | chartSuccess c => simp [applyRegenOp, visualInvariant, hasImagePayload]
  | contentApply r =>
      by_cases h : r.chart.isSome <;>
        simp [applyRegenOp, visualInvariant, hasImagePayload, isImageSentinel, h]

/-- The share payload assembled by `handlePublish` (src/index.tsx:253-270):
`{ slides, theme, customTheme: customThemeForShare || null }`.  The JSON /
base64 layers (`JSON.stringify` / `btoa`, reversed by `atob` / `JSON.parse`)
are faithful on this structure whenever encoding succeeds, so encode/decode
are composed at the payload level. -/
structure SharePayload where
  slides : List Slide
  theme : String
  customTheme : Option CustomTheme
deriving DecidableEq

/-- `handlePublish` payload construction (src/index.tsx:255-260):
`customThemes.find(t => t.id === theme)` with `|| null` for absence. -/
def encodeShare (slides : List Slide) (theme : String)
    (customThemes : List CustomTheme) : SharePayload :=
  { slides := slides
    theme := theme
    customTheme := customThemes.find? (fun t => t.id == theme) }

/-- JS truthiness of the `payload.theme` string in the decode guard
`if (payload.slides && payload.theme)` (src/index.tsx:181): a string is
falsy exactly when it is empty. -/
def themeTruthy (t : String) : Bool :=
  !(t == "")

/-- The share-decode effect (src/index.tsx:181-192) restricted to an encoded
payload: `payload.slides` is an array and arrays are always truthy, so the
guard reduces to the truthiness of `payload.theme`; on success the decoded
deck is `payload.slides` with theme id `payload.theme`. -/
def decodeShare (p : SharePayload) : Option (List Slide × String) :=
  if themeTruthy p.theme then some (p.slides, p.theme) else none

/-- A concrete slide used by witnesses and counterexamples. -/
def demoSlide : Slide :=
  { title := "Intro"
    content := ["point one", "point two"]
    imagePrompt := "a lightbulb"
    layout := .textLeft }

/-- Faithful rendering of the index-based filter
`slides.filter((_, i) => i !== index)` in `handleDeleteSlide`
(src/index.tsx:684).  `i` is the running position of the head element. -/
def filterIdxNeAux {α : Type} (j : Nat) : List α → Nat → List α
  | [], _ => []
  | a :: t, i =>
      if i ≠ j then a :: filterIdxNeAux j t (i + 1) else filterIdxNeAux j t (i + 1)

/-- `slides.filter((_, i) => i !== index)`, positions counted from 0. -/
def filterIdxNe {α : Type} (l : List α) (j : Nat) : List α :=
  filterIdxNeAux j l 0

/-- `handleDeleteSlide` (src/index.tsx:682-689): no-op when the deck has at
most one slide or is read-only; otherwise drop the slide at `j` and, when
`currentSlideIndex >= j`, set the cursor to `Math.max(0, currentSlideIndex - 1)`.
(`Nat` subtraction already truncates at 0, matching `Math.max(0, i - 1)`.) -/
def handleDeleteSlide (isReadOnlyView : Bool) (slides : List Slide)
    (currentSlideIndex j : Nat) : List Slide × Nat :=
  if slides.length ≤ 1 || isReadOnlyView then (slides, currentSlideIndex)
  else
    let newSlides := filterIdxNe slides j
    if currentSlideIndex ≥ j then (newSlides, max 0 (currentSlideIndex - 1))
    else (newSlides, currentSlideIndex)

/-- Standard list-move of `handleDragSort` (src/index.tsx:697-699):
`newSlides.splice(src, 1)[0]` removes and returns the dragged element, then
`newSlides.splice(dst, 0, draggedItemContent)` reinserts it at `dst` in the
shortened list.  For an out-of-range `src` the typed model returns the list
unchanged (the claims only quantify over valid indices). -/
def moveSlide {α : Type} (l : List α) (src dst : Nat) : List α :=
  match l[src]? with
  | some x => (l.eraseIdx src).insertIdx dst x
  | none => l

/-- Cursor update of `handleDragSort` (src/index.tsx:701-708), branch by
branch: equal to source follows to destination; `src < cur && dst >= cur`
decrements; `src > cur && dst <= cur` increments; otherwise unchanged. -/
def dragNewCurrentIndex (src dst cur : Nat) : Nat :=
  if cur = src then dst
  else if src < cur ∧ dst ≥ cur then cur - 1
  else if src > cur ∧ dst ≤ cur then cur + 1
  else cur

/-- `handleDragSort` (src/index.tsx:694-715): no-op when either drag ref is
unset, the two indices are equal, or the deck is read-only; otherwise move
the slide and update the cursor. -/
def handleDragSort (isReadOnlyView : Bool) (slides : List Slide) (cur : Nat)
    (dragItem dragOverItem : Option Nat) : List Slide × Nat :=
  match dragItem, dragOverItem with
  | some src, some dst =>
      if src = dst ∨ isReadOnlyView then (slides, cur)
      else (moveSlide slides src dst, dragNewCurrentIndex src dst cur)
  | _, _ => (slides, cur)

/-- The cursor rule exactly as the spec sentence words it: follow the moved
item when equal to the source; shift by one against the move when *strictly
between* source and destination in the direction of the move; otherwise
unchanged.  Used to compare the claim's wording against the code. -/
def specCursorRule (src dst cur : Nat) : Nat :=
  if cur = src then dst
  else if src < cur ∧ cur < dst then cur - 1
  else if dst < cur ∧ cur < src then cur + 1
  else cur

/-- A second concrete slide (distinct title) for reorder counterexamples. -/
def demoSlideB : Slide :=
  { title := "Body"
    content := ["detail"]
    imagePrompt := "a gear"
    layout := .textRight }

/-- A third concrete slide (distinct title) for reorder counterexamples. -/
def demoSlideC : Slide :=
  { title := "Close"
    content := ["summary"]
    imagePrompt := "a sunset"
    layout := .imageFull }

/-- A concrete three-slide deck with pairwise distinct slides. -/
def demoDeck3 : List Slide :=
  [demoSlide, demoSlideB, demoSlideC]

/-- Value-level rendering of `const updated = [...prev]; updated[i] = f(updated[i])`:
replace the element at `i`, leave the list unchanged when `i` is out of
range. -/
def modifyAt {α : Type} (l : List α) (i : Nat) (f : α → α) : List α :=
  match l[i]? with
  | some x => l.set i (f x)
  | none => l

/-- `responseText.split('\n')` on the character level (structural recursion;
`String.splitOn` in the library is well-founded and does not evaluate in
proofs by reduction). -/
def splitLines : List Char → List (List Char)
  | [] => [[]]
  | c :: cs =>
      if c = '\n' then [] :: splitLines cs
      else
        match splitLines cs with
        | [] => [[c]]
        | l :: ls => (c :: l) :: ls

/-- JS `String.prototype.trim`: strip whitespace from both ends. -/
def trimChars (l : List Char) : List Char :=
  ((l.dropWhile Char.isWhitespace).reverse.dropWhile Char.isWhitespace).reverse

/-- The six characters of the `title:` marker matched case-insensitively by
`line.toLowerCase().startsWith('title:')`. -/
def titleMarker : List Char :=
  ['t', 'i', 't', 'l', 'e', ':']

/-- The enhance-wording parse convention (src/index.tsx:521-524): split the
response on newlines, keep the non-blank lines; the new title comes from the
first line starting (case-insensitively) with `title:` — since the match is
a prefix, `.replace(/title:/i, '')` removes exactly its first six
characters — trimmed, with JS `|| currentSlide.title` falling back when the
result is empty or no such line exists; the bullets are the lines whose
trimmed form starts with `-`, each with the dash dropped and re-trimmed. -/
def parseEnhanced (responseText : String) (currentTitle : String) :
    String × List String :=
  let lines := (splitLines responseText.data).filter
    (fun line => !(trimChars line).isEmpty)
  let newTitle :=
    match lines.find? (fun line => titleMarker.isPrefixOf (line.map Char.toLower)) with
    | some line =>
        let t := trimChars (line.drop 6)
        if t.isEmpty then currentTitle else t.asString
    | none => currentTitle
  let newContent :=
    (lines.filter (fun line => ['-'].isPrefixOf (trimChars line))).map
      (fun line => (trimChars ((trimChars line).drop 1)).asString)
  (newTitle, newContent)

/-- `handleEnhanceSlide` (src/index.tsx:499-541) at the state level: no-op in
read-only mode; parse the response against the current slide; install the
new title and bullets only when at least one bullet was parsed, otherwise
leave the slides untouched (the failure is only logged). -/
def handleEnhanceSlide (isReadOnlyView : Bool) (slides : List Slide)
    (index : Nat) (responseText : String) : List Slide :=
  if isReadOnlyView then slides
  else
    match slides[index]? with
    | none => slides
    | some currentSlide =>
        let parsed := parseEnhanced responseText currentSlide.title
        if parsed.2.length > 0 then
          modifyAt slides index
            (fun s => { s with title := parsed.1, content := parsed.2 })
        else slides

/-- A non-null share value as it looks after `atob` + `JSON.parse` succeed,
before the structural guard (src/index.tsx:181): either field may be absent.
Non-object JSON values other than `null` (numbers, strings, booleans,
arrays) are covered by absent fields, since their property accesses yield
`undefined` without throwing. -/
structure RawPayload where
  slides : Option (List Slide)
  theme : Option String
  customTheme : Option CustomTheme

/-- A successfully parsed JSON share value.  `JSON.parse` can yield `null`:
the guard's property access `payload.slides` then throws a TypeError inside
the same `try`, unlike every other parse result. -/
inductive ParsedShare
  | nullValue
  | value (p : RawPayload)

/-- Outcome of the fragment-decoding prefix of the share-load effect: no
`#share=` fragment, an exception from `atob` / `JSON.parse`, or a parsed
JSON value. -/
inductive DecodeOutcome
  | noShareFragment
  | throwsDuringDecode
  | parsed (v : ParsedShare)

/-- JS truthiness of `payload.slides` in the guard: a present array is
always truthy (even when empty); an absent field is `undefined`, falsy. -/
def slidesTruthy (s : Option (List Slide)) : Bool :=
  s.isSome

/-- JS truthiness of the possibly-absent `payload.theme`: absent or the
empty string is falsy. -/
def optThemeTruthy : Option String → Bool
  | none => false
  | some t => themeTruthy t

/-- The app state touched by the share-load effect (src/index.tsx:174-199);
`hashCleared` records whether the catch handler ran `window.location.hash = ''`. -/
structure LoadState where
  appStep : AppStep
  isReadOnlyView : Bool
  slides : List Slide
  theme : String
  customThemes : List CustomTheme
  hashCleared : Bool
deriving DecidableEq

/-- Merge of a carried custom theme into the local collection
(src/index.tsx:184-189): skipped when absent, appended unless an entry with
the same id already exists. -/
def mergeCustomTheme (prev : List CustomTheme) : Option CustomTheme → List CustomTheme
  | none => prev
  | some ct =>
      if (prev.find? (fun t => t.id == ct.id)).isSome then prev else prev ++ [ct]

/-- The share-decode `useEffect` (src/index.tsx:174-199): install the deck
read-only when the structural guard `payload.slides && payload.theme`
passes; do nothing when it fails on a non-null value; the fragment is
cleared by the catch handler (194-198), which runs when `atob` /
`JSON.parse` throws and also when the parsed value is `null`, since the
guard's `payload.slides` access itself then throws a TypeError inside the
same `try`. -/
def shareLoadEffect (o : DecodeOutcome) (st : LoadState) : LoadState :=
  match o with
  | .noShareFragment => st
  | .throwsDuringDecode => { st with hashCleared := true }
  | .parsed .nullValue => { st with hashCleared := true }
  | .parsed (.value p) =>
      if slidesTruthy p.slides && optThemeTruthy p.theme then
        { st with
          slides := p.slides.getD []
          theme := p.theme.getD ""
          customThemes := mergeCustomTheme st.customThemes p.customTheme
          isReadOnlyView := true
          appStep := .presentation }
      else st

/-- `interface Outline` (src/index.tsx:39-42). -/
structure Outline where
  title : String
  points : List String
deriving DecidableEq

/-- Per-slide visual branch of the Stage 2/3 loop (src/index.tsx:342-381):
the content response carried a chart (adopted directly, image step skipped),
or the image-synthesis call succeeded, or it failed. -/
inductive VisualOutcome
  | chart (c : ChartData)
  | imageOk (url : String)
  | imageFail
deriving DecidableEq

/-- `const totalSteps = selectedOutline.points.length * 2` (src/index.tsx:311):
one content unit plus one visual unit per slide. -/
def totalSteps (k : Nat) : Nat :=
  2 * k

/-- One reported percentage: `setProgress((currentStep / totalSteps) * 100)`
(src/index.tsx:338, 349, 381), in exact rational arithmetic. -/
def reportAt (total : ℚ) (s : Nat) : ℚ :=
  ((s : ℚ) / total) * 100

/-- The `setProgress` percentages emitted by the Stage 2/3 loop
(src/index.tsx:324-382), carrying `currentStep`: each slide reports once
after its content step and once after its visual step — in the chart branch
the second increment is the "skip image step" (348-349); in the image branch
it sits after the try/catch, so it fires on success and on failure alike
(380-381). -/
def pipelineReports (total : ℚ) : List VisualOutcome → Nat → List ℚ
  | [], _ => []
  | o :: rest, currentStep =>
      let afterContent := currentStep + 1
      let afterVisual := afterContent + 1
      match o with
      | .chart _ =>
          reportAt total afterContent :: reportAt total afterVisual ::
            pipelineReports total rest afterVisual
      | .imageOk _ =>
          reportAt total afterContent :: reportAt total afterVisual ::
            pipelineReports total rest afterVisual
      | .imageFail =>
          reportAt total afterContent :: reportAt total afterVisual ::
            pipelineReports total rest afterVisual

/-- The full percentage sequence of a successful pipeline run:
`setProgress(0)` on entry (src/index.tsx:307), the per-step reports, and the
final `setProgress(100)` of the finalizing block (385). -/
def progressTrace (outs : List VisualOutcome) : List ℚ :=
  0 :: pipelineReports ((totalSteps outs.length : Nat) : ℚ) outs 0 ++ [100]

/-- Outcome of a per-slide image-synthesis call. -/
inductive ImgResult
  | ok (url : String)
  | fail
deriving DecidableEq

/-- Environment for one slide of the Stage 2/3 loop: the content call either
throws (aborting the pipeline) or returns a parsed response; when the
response carries no chart, the image call resolves with an `ImgResult`. -/
inductive SlideEnv
  | contentFail
  | content (r : ContentResp) (img : ImgResult)
deriving DecidableEq

/-- Placeholder slide built from one outline point (src/index.tsx:314-321). -/
def initialSlide (title : String) : Slide :=
  { title := title
    content := []
    imagePrompt := ""
    layout := .textLeft
    speakerNotes := some ""
    imageUrl := some "pending" }

/-- One pass of the Stage 2/3 loop body over one slide (src/index.tsx:324-382):
`none` models the thrown content error; a chart response is adopted with the
image cleared; otherwise the slide goes through `imageUrl: 'loading'` and
ends with the image payload or the `'error'` sentinel — the image failure is
caught locally (372-379) and never aborts. -/
def runSlide (s : Slide) : SlideEnv → Option Slide
  | .contentFail => none
  | .content r img =>
      match r.chart with
      | some c =>
          some { s with
            content := r.content
            imagePrompt := r.imagePrompt
            chartData := some c
            imageUrl := none }
      | none =>
          let loading := { s with
            content := r.content
            imagePrompt := r.imagePrompt
            imageUrl := some "loading" }
          match img with
          | .ok url => some { loading with imageUrl := some url }
          | .fail => some { loading with imageUrl := some "error" }

/-- The Stage 2/3 loop over the placeholder slides: slides processed in
order; a content failure aborts the whole run (caught only by the outer
catch, src/index.tsx:388-392); an image failure marks its own slide and the
loop continues. -/
def runSlides : List Slide → List SlideEnv → Option (List Slide)
  | [], _ => some []
  | _ :: _, [] => none
  | s :: rest, e :: es =>
      match runSlide s e with
      | none => none
      | some s' =>
          match runSlides rest es with
          | none => none
          | some out => some (s' :: out)

/-- `handleGenerateSlidesFromOutline` (src/index.tsx:302-393) as control
flow: build placeholder slides from the selected outline's points and run
the loop; on success the app lands on the presentation screen, on a content
failure the catch returns to the outline screen (prior screen). -/
def handleGenerateSlidesFromOutline (points : List String) (envs : List SlideEnv) :
    AppStep × Option (List Slide) :=
  match runSlides (points.map initialSlide) envs with
  | some out => (.presentation, some out)
  | none => (.outline, none)

/-- `handleGenerateOutlines` (src/index.tsx:272-300) error policy: a Stage-1
failure returns to the prompt screen (prior screen); success advances to the
outline screen. -/
def handleGenerateOutlines (outcome : Option (List Outline)) : AppStep :=
  match outcome with
  | some _ => .outline
  | none => .prompt

/-- A slide collection as JS holds it: an array of references into an
object heap.  An address is a position in the heap; `[...prev]` copies the
address array but not the records; allocation appends to the heap. -/
structure Store where
  heap : List Slide
  slideAddrs : List Nat

/-- A `(field, value)` argument pair of
`handleUpdateSlide(index, field, value)` (src/index.tsx:660-665). -/
inductive FieldVal
  | title (v : String)
  | content (v : List String)
  | imagePrompt (v : String)
  | imageUrl (v : Option String)
  | speakerNotes (v : Option String)
  | layout (v : SlideLayout)
  | chartData (v : Option ChartData)

/-- The field names of a `Slide`. -/
inductive FieldName
  | title
  | content
  | imagePrompt
  | imageUrl
  | speakerNotes
  | layout
  | chartData
deriving DecidableEq

/-- The field a `FieldVal` targets. -/
def fieldNameOf : FieldVal → FieldName
  | .title _ => .title
  | .content _ => .content
  | .imagePrompt _ => .imagePrompt
  | .imageUrl _ => .imageUrl
  | .speakerNotes _ => .speakerNotes
  | .layout _ => .layout
  | .chartData _ => .chartData

/-- `{ ...slide, [field]: value }`: the spread-with-override of
`handleUpdateSlide` (src/index.tsx:663). -/
def setField (s : Slide) : FieldVal → Slide
  | .title v => { s with title := v }
  | .content v => { s with content := v }
  | .imagePrompt v => { s with imagePrompt := v }
  | .imageUrl v => { s with imageUrl := v }
  | .speakerNotes v => { s with speakerNotes := v }
  | .layout v => { s with layout := v }
  | .chartData v => { s with chartData := v }

/-- Read one field of a slide back as a `FieldVal`. -/
def getField (s : Slide) : FieldName → FieldVal
  | .title => .title s.title
  | .content => .content s.content
  | .imagePrompt => .imagePrompt s.imagePrompt
  | .imageUrl => .imageUrl s.imageUrl
  | .speakerNotes => .speakerNotes s.speakerNotes
  | .layout => .layout s.layout
  | .chartData => .chartData s.chartData

/-- `handleUpdateSlide` (src/index.tsx:660-665) at the heap level: read-only
is a no-op; otherwise
`updatedSlides[index] = { ...updatedSlides[index], [field]: value }` builds
a *fresh* record with one field replaced and repoints only the new array's
slot `index` at it; the records of the previous collection are untouched. -/
def handleUpdateSlide (isReadOnlyView : Bool) (st : Store) (index : Nat)
    (fv : FieldVal) : Store :=
  if isReadOnlyView then st
  else
    match st.slideAddrs[index]? with
    | none => st
    | some a =>
        match st.heap[a]? with
        | none => st
        | some s =>
            { heap := st.heap ++ [setField s fv]
              slideAddrs := st.slideAddrs.set index st.heap.length }

/-- The successful enhance-wording application (src/index.tsx:527-532) at
the heap level: `const updated = [...prev]` copies the address array, but
`updated[index].title = newTitle; updated[index].content = newContent`
write through the shared reference — the record is mutated in place and the
addresses are unchanged. -/
def handleEnhanceSlideStore (isReadOnlyView : Bool) (st : Store) (index : Nat)
    (newTitle : String) (newContent : List String) : Store :=
  if isReadOnlyView then st
  else
    match st.slideAddrs[index]? with
    | none => st
    | some a =>
        { heap := modifyAt st.heap a
            (fun s => { s with title := newTitle, content := newContent })
          slideAddrs := st.slideAddrs }

/-- What a consumer holding an address array observes on a given heap. -/
def viewDeck (heap : List Slide) (addrs : List Nat) : List (Option Slide) :=
  addrs.map (fun a => heap[a]?)

/-- C1.  Visual mutual exclusivity: installing a chart clears the image,
installing an image clears any chart, and every regeneration update
(regenerate image entry/success/failure, regenerate chart success,
regenerate content application) leaves the target slide satisfying the
invariant that `chartData` and an actual image payload in `imageUrl` are
never simultaneously present. -/
theorem C1_visual_mutual_exclusivity :
    (∀ (c : ChartData) (s : Slide),
        (applyRegenOp (.chartSuccess c) s).imageUrl = none) ∧
    (∀ (url : String) (s : Slide),
        (applyRegenOp (.imageSuccess url) s).chartData = none) ∧
    (∀ (op : RegenOp) (s : Slide),
        visualInvariant (applyRegenOp op s) = true) := by
  refine ⟨fun c s => rfl, fun url s => rfl, fun op s => applyRegenOp_visualInvariant op s⟩

/-- C2 counterexample.  The decode guard `if (payload.slides && payload.theme)`
uses JS truthiness, and the empty string is falsy: a deck whose active theme
id is `""` encodes without error, but decoding its payload installs nothing,
so the round-trip yields no deck at all. -/
theorem C2_counterexample :
    decodeShare (encodeShare [demoSlide] "" []) = none := by
  rfl

/-- C2 (amended).  Share round-trip: for every deck whose encoding succeeds
and whose active theme id is a nonempty string, encoding the deck (slides,
theme id, and the matching custom theme when the active theme is custom) and
then decoding the payload yields exactly the original slides and the original
theme id. -/
theorem C2_share_roundtrip (slides : List Slide) (theme : String)
    (customThemes : List CustomTheme) (h : theme ≠ "") :
    decodeShare (encodeShare slides theme customThemes) = some (slides, theme) := by
  simp [decodeShare, encodeShare, themeTruthy, h]

/-- C2 witness: the round-trip at a concrete one-slide deck with the built-in
`dark` theme. -/
theorem C2_share_roundtrip_witness :
    "dark" ≠ "" ∧
      decodeShare (encodeShare [demoSlide] "dark" []) = some ([demoSlide], "dark") :=
  ⟨by decide, C2_share_roundtrip [demoSlide] "dark" [] (by decide)⟩

/-- Helper: the index-based filter of `handleDeleteSlide` removes exactly the
element at the filtered index (offset form). -/
theorem filterIdxNeAux_eq {α : Type} (j : Nat) (l : List α) :
    ∀ i, filterIdxNeAux j l i = if i ≤ j then l.eraseIdx (j - i) else l := by
  induction l with
  | nil => intro i; simp [filterIdxNeAux]
  | cons a t ih =>
      intro i
      by_cases hij : i = j
      · subst hij
        simp [filterIdxNeAux, ih (i + 1), Nat.lt_irrefl, show ¬(i + 1 ≤ i) by omega]
      · by_cases hlt : i < j
        · have hj : j - i = (j - (i + 1)) + 1 := by omega
          simp only [filterIdxNeAux, if_pos hij, ih (i + 1), if_pos (by omega : i ≤ j),
            if_pos (by omega : i + 1 ≤ j), hj, List.eraseIdx_cons_succ]
        · simp [filterIdxNeAux, hij, ih (i + 1), show ¬(i ≤ j) by omega,
            show ¬(i + 1 ≤ j) by omega]

/-- Helper: the index-based filter equals `eraseIdx`. -/
theorem filterIdxNe_eq_eraseIdx {α : Type} (l : List α) (j : Nat) :
    filterIdxNe l j = l.eraseIdx j := by
  simpa using filterIdxNeAux_eq j l 0

/-- C5.  Delete-slide contract: deletion is a no-op on a one-slide or
read-only deck (so the slide count never drops below 1); otherwise deleting
index `j` removes exactly that slide, leaves the cursor unchanged when
`j > i`, sets it to `max 0 (i - 1)` when `j ≤ i`, and the new cursor indexes
a valid slide. -/
theorem C5_delete_slide (ro : Bool) (slides : List Slide) (i j : Nat)
    (hi : i < slides.length) (hj : j < slides.length) :
    (1 ≤ slides.length → 1 ≤ (handleDeleteSlide ro slides i j).1.length) ∧
    (slides.length = 1 ∨ ro = true → handleDeleteSlide ro slides i j = (slides, i)) ∧
    (2 ≤ slides.length → ro = false →
      (handleDeleteSlide ro slides i j).1 = slides.eraseIdx j ∧
      (j > i → (handleDeleteSlide ro slides i j).2 = i) ∧
      (j ≤ i → (handleDeleteSlide ro slides i j).2 = max 0 (i - 1)) ∧
      (handleDeleteSlide ro slides i j).2 < (handleDeleteSlide ro slides i j).1.length) := by
  by_cases hguard : slides.length ≤ 1 ∨ ro = true
  · have hg : (slides.length ≤ 1 || ro) = true := by
      rcases hguard with h | h
      · simp [h]
      · simp [h]
    refine ⟨?_, ?_, ?_⟩
    · intro h1
      simp [handleDeleteSlide, hg]
      omega
    · intro _
      simp [handleDeleteSlide, hg]
    · intro h2 hro
      exfalso
      rcases hguard with h | h
      · omega
      · rw [h] at hro; exact Bool.noConfusion hro
  · push_neg at hguard
    have h2 : 2 ≤ slides.length := by omega
    have hro : ro = false := by
      cases ro
      · rfl
      · exact absurd rfl hguard.2
    have hg : (slides.length ≤ 1 || ro) = false := by
      simp [hro]
      omega
    have herase : filterIdxNe slides j = slides.eraseIdx j := filterIdxNe_eq_eraseIdx slides j
    have hlen : (slides.eraseIdx j).length = slides.length - 1 :=
      List.length_eraseIdx_of_lt hj
    refine ⟨?_, ?_, ?_⟩
    · intro _
      by_cases hij : i ≥ j <;> simp [handleDeleteSlide, hg, hij, herase, hlen] <;> omega
    · rintro (h | h)
      · omega
      · rw [h] at hro; exact Bool.noConfusion hro
    · intro _ _
      refine ⟨?_, ?_, ?_, ?_⟩
      · by_cases hij : i ≥ j <;> simp [handleDeleteSlide, hg, hij, herase]
      · intro hji
        simp [handleDeleteSlide, hg, show ¬(i ≥ j) by omega]
      · intro hji
        simp [handleDeleteSlide, hg, show i ≥ j from hji]
      · by_cases hij : i ≥ j <;> simp [handleDeleteSlide, hg, hij, herase, hlen] <;> omega

/-- C5 witness: deleting slide 0 of a concrete two-slide deck with the cursor
on slide 1. -/
theorem C5_delete_slide_witness :
    1 < ([demoSlide, demoSlide] : List Slide).length ∧
      ((handleDeleteSlide false [demoSlide, demoSlide] 1 0).1 =
          ([demoSlide, demoSlide] : List Slide).eraseIdx 0 ∧
        (0 > 1 → (handleDeleteSlide false [demoSlide, demoSlide] 1 0).2 = 1) ∧
        (0 ≤ 1 → (handleDeleteSlide false [demoSlide, demoSlide] 1 0).2 = max 0 (1 - 1)) ∧
        (handleDeleteSlide false [demoSlide, demoSlide] 1 0).2 <
          (handleDeleteSlide false [demoSlide, demoSlide] 1 0).1.length) :=
  ⟨by decide,
    (C5_delete_slide false [demoSlide, demoSlide] 1 0 (by decide) (by decide)).2.2
      (by decide) rfl⟩

/-- Helper: inserting at a valid position is a permutation of consing. -/
theorem insertIdx_perm_cons {α : Type} (a : α) :
    ∀ (n : Nat) (l : List α), n ≤ l.length → (l.insertIdx n a).Perm (a :: l)
  | 0, l, _ => by simp
  | n + 1, [], h => by simp at h
  | n + 1, b :: t, h => by
      simp only [List.insertIdx_succ_cons]
      exact ((insertIdx_perm_cons a n t (by simpa using h)).cons b).trans
        (List.Perm.swap a b t)

/-- Helper: a list is a permutation of its `i`-th element consed onto the
list with index `i` erased. -/
theorem perm_cons_eraseIdx {α : Type} :
    ∀ (l : List α) (i : Nat) (x : α), l[i]? = some x → l.Perm (x :: l.eraseIdx i)
  | [], i, x, h => by simp at h
  | a :: t, 0, x, h => by
      simp only [List.getElem?_cons_zero, Option.some.injEq] at h
      subst h
      simp
  | a :: t, i + 1, x, h => by
      have h' : t[i]? = some x := by simpa using h
      have hrec := (perm_cons_eraseIdx t i x h').cons a
      have hswap := List.Perm.swap x a (t.eraseIdx i)
      simpa using hrec.trans hswap

/-- Helper: after a move, the slide at the code's new cursor index is the
slide the cursor pointed at before the move. -/
theorem moveSlide_cursor {α : Type} (l : List α) (src dst cur : Nat)
    (hs : src < l.length) (hd : dst < l.length) (hc : cur < l.length) :
    (moveSlide l src dst)[dragNewCurrentIndex src dst cur]? = l[cur]? := by
  have hx : l[src]? = some l[src] := List.getElem?_eq_getElem hs
  have hmove : moveSlide l src dst = (l.eraseIdx src).insertIdx dst l[src] := by
    simp [moveSlide, hx]
  have he : (l.eraseIdx src).length = l.length - 1 := List.length_eraseIdx_of_lt hs
  have hdle : dst ≤ (l.eraseIdx src).length := by omega
  have hmlen : ((l.eraseIdx src).insertIdx dst l[src]).length = (l.eraseIdx src).length + 1 :=
    List.length_insertIdx dst _ hdle
  rw [hmove]
  unfold dragNewCurrentIndex
  by_cases h1 : cur = src
  · subst h1
    rw [if_pos rfl]
    have hb : dst < ((l.eraseIdx cur).insertIdx dst l[cur]).length := by omega
    rw [List.getElem?_eq_getElem hb, List.getElem_insertIdx_self _ _ dst hdle, hx]
  · rw [if_neg h1]
    by_cases h2 : src < cur ∧ dst ≥ cur
    · rw [if_pos h2]
      obtain ⟨h2a, h2b⟩ := h2
      have hk : cur - 1 < dst := by omega
      have hke : cur - 1 < (l.eraseIdx src).length := by omega
      have hb : cur - 1 < ((l.eraseIdx src).insertIdx dst l[src]).length := by omega
      rw [List.getElem?_eq_getElem hb,
        List.getElem_insertIdx_of_lt _ _ dst (cur - 1) hk hke,
        ← List.getElem?_eq_getElem hke,
        List.getElem?_eraseIdx_of_ge l src (cur - 1) (by omega),
        show cur - 1 + 1 = cur by omega]
    · rw [if_neg h2]
      by_cases h3 : src > cur ∧ dst ≤ cur
      · rw [if_pos h3]
        obtain ⟨h3a, h3b⟩ := h3
        have hk : dst + (cur - dst) < (l.eraseIdx src).length := by omega
        have hidx : cur + 1 = dst + (cur - dst) + 1 := by omega
        have hb' : dst + (cur - dst) + 1 <
            ((l.eraseIdx src).insertIdx dst l[src]).length := by omega
        rw [hidx,
          List.getElem?_eq_getElem hb',
          List.getElem_insertIdx_add_succ _ _ dst (cur - dst) hk,
          ← List.getElem?_eq_getElem hk,
          show dst + (cur - dst) = cur by omega,
          List.getElem?_eraseIdx_of_lt l src cur (by omega)]
      · rw [if_neg h3]
        by_cases hcs : cur < src
        · have hcd : cur < dst := by
            by_contra hh
            exact h3 ⟨hcs, by omega⟩
          have hke : cur < (l.eraseIdx src).length := by omega
          have hb : cur < ((l.eraseIdx src).insertIdx dst l[src]).length := by omega
          rw [List.getElem?_eq_getElem hb,
            List.getElem_insertIdx_of_lt _ _ dst cur hcd hke,
            ← List.getElem?_eq_getElem hke,
            List.getElem?_eraseIdx_of_lt l src cur (by omega)]
        · have hsc : src < cur := by omega
          have hdc : dst < cur := by
            by_contra hh
            exact h2 ⟨hsc, by omega⟩
          have hk : dst + (cur - dst - 1) < (l.eraseIdx src).length := by omega
          have hidx : cur = dst + (cur - dst - 1) + 1 := by omega
          have hb' : dst + (cur - dst - 1) + 1 <
              ((l.eraseIdx src).insertIdx dst l[src]).length := by omega
          rw [hidx,
            List.getElem?_eq_getElem hb',
            List.getElem_insertIdx_add_succ _ _ dst (cur - dst - 1) hk,
            ← List.getElem?_eq_getElem hk,
            show dst + (cur - dst - 1) = cur - 1 by omega,
            List.getElem?_eraseIdx_of_ge l src (cur - 1) (by omega),
            show cur - 1 + 1 = cur by omega]

/-- C3.  Reorder correctness: for valid `src ≠ dst`, the moved list is a
permutation of the original, the element now at `dst` is the element that
was at `src`, and erasing the moved element from the result gives the same
list as erasing the source from the original — i.e. every other element
keeps its original relative order. -/
theorem C3_reorder (l : List Slide) (src dst : Nat)
    (hs : src < l.length) (hd : dst < l.length) (_hne : src ≠ dst) :
    (moveSlide l src dst).Perm l ∧
      (moveSlide l src dst)[dst]? = l[src]? ∧
      (moveSlide l src dst).eraseIdx dst = l.eraseIdx src := by
  have hx : l[src]? = some l[src] := List.getElem?_eq_getElem hs
  have hmove : moveSlide l src dst = (l.eraseIdx src).insertIdx dst l[src] := by
    simp [moveSlide, hx]
  have he : (l.eraseIdx src).length = l.length - 1 := List.length_eraseIdx_of_lt hs
  have hdle : dst ≤ (l.eraseIdx src).length := by omega
  refine ⟨?_, ?_, ?_⟩
  · rw [hmove]
    exact (insertIdx_perm_cons l[src] dst _ hdle).trans
      (perm_cons_eraseIdx l src l[src] hx).symm
  · rw [hmove]
    have hb : dst < ((l.eraseIdx src).insertIdx dst l[src]).length := by
      rw [List.length_insertIdx dst _ hdle]
      omega
    rw [List.getElem?_eq_getElem hb, List.getElem_insertIdx_self _ _ dst hdle, hx]
  · rw [hmove, List.eraseIdx_insertIdx]

/-- C3 witness: moving slide 0 to position 2 in the concrete three-slide
deck. -/
theorem C3_reorder_witness :
    0 < demoDeck3.length ∧ 2 < demoDeck3.length ∧ (0 : Nat) ≠ 2 ∧
      ((moveSlide demoDeck3 0 2).Perm demoDeck3 ∧
        (moveSlide demoDeck3 0 2)[2]? = demoDeck3[0]? ∧
        (moveSlide demoDeck3 0 2).eraseIdx 2 = demoDeck3.eraseIdx 0) :=
  ⟨by decide, by decide, by decide,
    C3_reorder demoDeck3 0 2 (by decide) (by decide) (by decide)⟩

/-- C4 counterexample.  Forward move of slide 0 to position 1 with the
cursor at 1: the cursor equals the destination, which is *not* strictly
between source and destination, so the claim's rule leaves it at 1 — but the
code decrements it to 0, and 0 (not 1) is where the record the cursor
pointed at now lives. -/
theorem C4_counterexample :
    dragNewCurrentIndex 0 1 1 = 0 ∧
      specCursorRule 0 1 1 = 1 ∧
      (moveSlide demoDeck3 0 1)[specCursorRule 0 1 1]? ≠ demoDeck3[1]? ∧
      (moveSlide demoDeck3 0 1)[dragNewCurrentIndex 0 1 1]? = demoDeck3[1]? := by
  refine ⟨by decide, by decide, ?_, by decide⟩
  decide

/-- C4 (amended).  Reorder cursor rule with the half-open interval the code
actually uses: the cursor follows the moved slide when it equals the source;
it shifts one step against the move when it lies strictly after the source
and at-or-before the destination (forward move), or at-or-after the
destination and strictly before the source (backward move); otherwise it is
unchanged — and in all cases the new cursor indexes the slide record the old
cursor indexed before the move. -/
theorem C4_cursor_rule (l : List Slide) (src dst cur : Nat)
    (hs : src < l.length) (hd : dst < l.length) (hc : cur < l.length)
    (hne : src ≠ dst) :
    handleDragSort false l cur (some src) (some dst) =
        (moveSlide l src dst, dragNewCurrentIndex src dst cur) ∧
      (cur = src → dragNewCurrentIndex src dst cur = dst) ∧
      (src < cur → cur ≤ dst → dragNewCurrentIndex src dst cur = cur - 1) ∧
      (dst ≤ cur → cur < src → dragNewCurrentIndex src dst cur = cur + 1) ∧
      (cur ≠ src → ¬(src < cur ∧ cur ≤ dst) → ¬(dst ≤ cur ∧ cur < src) →
        dragNewCurrentIndex src dst cur = cur) ∧
      (moveSlide l src dst)[dragNewCurrentIndex src dst cur]? = l[cur]? := by
  refine ⟨?_, ?_, ?_, ?_, ?_, moveSlide_cursor l src dst cur hs hd hc⟩
  · simp [handleDragSort, hne]
  · intro h
    subst h
    simp [dragNewCurrentIndex]
  · intro h1 h2
    rw [dragNewCurrentIndex, if_neg (by omega), if_pos ⟨h1, h2⟩]
  · intro h1 h2
    rw [dragNewCurrentIndex, if_neg (by omega), if_neg (by omega), if_pos ⟨h2, h1⟩]
  · intro h1 h2 h3
    rw [dragNewCurrentIndex, if_neg h1, if_neg (by exact fun hh => h2 ⟨hh.1, hh.2⟩),
      if_neg (by exact fun hh => h3 ⟨hh.2, hh.1⟩)]

/-- C4 witness: the amended rule at the counterexample's own configuration
(forward move 0 → 1, cursor at 1 = destination). -/
theorem C4_cursor_rule_witness :
    0 < demoDeck3.length ∧ 1 < demoDeck3.length ∧ (0 : Nat) ≠ 1 ∧
      (handleDragSort false demoDeck3 1 (some 0) (some 1) =
          (moveSlide demoDeck3 0 1, dragNewCurrentIndex 0 1 1) ∧
        (moveSlide demoDeck3 0 1)[dragNewCurrentIndex 0 1 1]? = demoDeck3[1]?) := by
  have h := C4_cursor_rule demoDeck3 0 1 1 (by decide) (by decide) (by decide) (by decide)
  exact ⟨by decide, by decide, by decide, h.1, h.2.2.2.2.2⟩

/-- Helper: the loop body emits the same two reports in every visual
branch. -/
theorem pipelineReports_cons (total : ℚ) (o : VisualOutcome)
    (rest : List VisualOutcome) (step : Nat) :
    pipelineReports total (o :: rest) step =
      reportAt total (step + 1) :: reportAt total (step + 1 + 1) ::
        pipelineReports total rest (step + 1 + 1) := by
  cases o <;> rfl

/-- Helper: reported percentages are nonnegative. -/
theorem reportAt_nonneg (total : ℚ) (h : 0 < total) (s : Nat) :
    0 ≤ reportAt total s := by
  unfold reportAt
  positivity

/-- Helper: reported percentages are monotone in the step counter. -/
theorem reportAt_mono (total : ℚ) (h : 0 < total) {s t : Nat} (hst : s ≤ t) :
    reportAt total s ≤ reportAt total t := by
  unfold reportAt
  have hc : (s : ℚ) ≤ (t : ℚ) := by exact_mod_cast hst
  exact mul_le_mul_of_nonneg_right ((div_le_div_iff_of_pos_right h).mpr hc) (by norm_num)

/-- Helper: reported percentages are strictly monotone in the step
counter. -/
theorem reportAt_strict (total : ℚ) (h : 0 < total) {s t : Nat} (hst : s < t) :
    reportAt total s < reportAt total t := by
  unfold reportAt
  have hc : (s : ℚ) < (t : ℚ) := by exact_mod_cast hst
  exact mul_lt_mul_of_pos_right ((div_lt_div_iff_of_pos_right h).mpr hc) (by norm_num)

/-- Helper: the per-step reports are sorted and bounded between the first
and last step percentages of the remaining run. -/
theorem pipelineReports_sorted (total : ℚ) (h : 0 < total) :
    ∀ (outs : List VisualOutcome) (step : Nat),
      (pipelineReports total outs step).Pairwise (· ≤ ·) ∧
        ∀ x ∈ pipelineReports total outs step,
          reportAt total (step + 1) ≤ x ∧
            x ≤ reportAt total (step + 2 * outs.length)
  | [], step => by simp [pipelineReports]
  | o :: rest, step => by
      obtain ⟨ihp, ihb⟩ := pipelineReports_sorted total h rest (step + 1 + 1)
      rw [pipelineReports_cons]
      have hlen : step + 2 * (o :: rest).length = step + 1 + 1 + 2 * rest.length := by
        simp only [List.length_cons]
        ring
      constructor
      · refine List.Pairwise.cons ?_ (List.Pairwise.cons ?_ ihp)
        · intro b hb
          rcases List.mem_cons.mp hb with hb | hb
          · exact hb ▸ reportAt_mono total h (by omega)
          · exact le_trans (reportAt_mono total h (by omega)) (ihb b hb).1
        · intro b hb
          exact le_trans (reportAt_mono total h (by omega)) (ihb b hb).1
      · intro x hx
        rcases List.mem_cons.mp hx with hx | hx
        · subst hx
          refine ⟨le_refl _, ?_⟩
          rw [hlen]
          exact reportAt_mono total h (by omega)
        · rcases List.mem_cons.mp hx with hx | hx
          · subst hx
            refine ⟨reportAt_mono total h (by omega), ?_⟩
            rw [hlen]
            exact reportAt_mono total h (by omega)
          · obtain ⟨hl, hu⟩ := ihb x hx
            refine ⟨le_trans (reportAt_mono total h (by omega)) hl, ?_⟩
            rw [hlen]
            exact hu

/-- Helper: `getLast?` skips a head in front of a nonempty list. -/
theorem getLast?_cons_of_ne {α : Type} (a : α) (l : List α) (h : l ≠ []) :
    (a :: l).getLast? = l.getLast? := by
  cases l with
  | nil => exact absurd rfl h
  | cons b t => exact List.getLast?_cons_cons

/-- Helper: the last per-step report carries the full step count, and every
earlier report is strictly smaller. -/
theorem pipelineReports_last (total : ℚ) (h : 0 < total) :
    ∀ (outs : List VisualOutcome) (step : Nat), outs ≠ [] →
      (pipelineReports total outs step).getLast? =
          some (reportAt total (step + 2 * outs.length)) ∧
        ∀ x ∈ (pipelineReports total outs step).dropLast,
          x < reportAt total (step + 2 * outs.length)
  | [], _, hne => absurd rfl hne
  | [o], step, _ => by
      rw [pipelineReports_cons]
      have h1 : step + 2 * ([o] : List VisualOutcome).length = step + 1 + 1 := by
        simp
      rw [h1]
      have hnil : pipelineReports total [] (step + 1 + 1) = [] := rfl
      rw [hnil]
      refine ⟨by simp, ?_⟩
      intro x hx
      simp only [List.dropLast_cons₂, List.dropLast_single, List.mem_singleton] at hx
      subst hx
      exact reportAt_strict total h (by omega)
  | o :: o' :: rest, step, _ => by
      obtain ⟨ihl, ihd⟩ :=
        pipelineReports_last total h (o' :: rest) (step + 1 + 1) (by simp)
      rw [pipelineReports_cons]
      have hlen : step + 2 * (o :: o' :: rest).length =
          step + 1 + 1 + 2 * (o' :: rest).length := by
        simp only [List.length_cons]
        ring
      rw [hlen]
      have hne2 : pipelineReports total (o' :: rest) (step + 1 + 1) ≠ [] := by
        rw [pipelineReports_cons]
        simp
      constructor
      · rw [List.getLast?_cons_cons, getLast?_cons_of_ne _ _ hne2, ihl]
      · intro x hx
        rw [List.dropLast_cons₂, List.dropLast_cons_of_ne_nil hne2] at hx
        rcases List.mem_cons.mp hx with hx | hx
        · subst hx
          apply reportAt_strict total h
          simp only [List.length_cons]
          omega
        · rcases List.mem_cons.mp hx with hx | hx
          · subst hx
            apply reportAt_strict total h
            simp only [List.length_cons]
            omega
          · exact ihd x hx

/-- C6.  Progress accounting: the pipeline's total unit count is 2 × the
slide count; the reported percentage sequence (initial 0, one report per
completed step — the visual step counted immediately when a chart is
adopted — and the final 100) is monotonically non-decreasing; and among the
per-step reports, the last one (emitted when the final slide's visual step
resolves, success or failure alike) is the first to reach 100: everything
before it is strictly below 100. -/
theorem C6_progress_accounting (outs : List VisualOutcome) (hne : outs ≠ []) :
    totalSteps outs.length = 2 * outs.length ∧
      (progressTrace outs).Pairwise (· ≤ ·) ∧
      (0 :: pipelineReports ((totalSteps outs.length : Nat) : ℚ) outs 0).getLast? =
        some 100 ∧
      ∀ x ∈ (0 :: pipelineReports ((totalSteps outs.length : Nat) : ℚ) outs 0).dropLast,
        x < 100 := by
  have hk : 1 ≤ outs.length := by
    cases outs with
    | nil => exact absurd rfl hne
    | cons a t => simp
  have htot : (0 : ℚ) < ((totalSteps outs.length : Nat) : ℚ) := by
    have : 0 < totalSteps outs.length := by
      unfold totalSteps
      omega
    exact_mod_cast this
  have h100 : reportAt ((totalSteps outs.length : Nat) : ℚ) (0 + 2 * outs.length) = 100 := by
    unfold reportAt totalSteps
    rw [Nat.zero_add]
    have hnz : ((2 * outs.length : Nat) : ℚ) ≠ 0 := by
      have : 2 * outs.length ≠ 0 := by omega
      exact_mod_cast this
    rw [div_self hnz]
    norm_num
  obtain ⟨hlast, hdrop⟩ :=
    pipelineReports_last ((totalSteps outs.length : Nat) : ℚ) htot outs 0 hne
  obtain ⟨hpair, hbnd⟩ :=
    pipelineReports_sorted ((totalSteps outs.length : Nat) : ℚ) htot outs 0
  have hrep_ne : pipelineReports ((totalSteps outs.length : Nat) : ℚ) outs 0 ≠ [] := by
    cases outs with
    | nil => exact absurd rfl hne
    | cons a t =>
        rw [pipelineReports_cons]
        simp
  refine ⟨rfl, ?_, ?_, ?_⟩
  · unfold progressTrace
    rw [List.cons_append, List.pairwise_cons]
    constructor
    · intro b hb
      rcases List.mem_append.mp hb with hb | hb
      · exact le_trans (reportAt_nonneg _ htot 1) (hbnd b hb).1
      · rcases List.mem_singleton.mp hb with rfl
        norm_num
    · rw [List.pairwise_append]
      refine ⟨hpair, by simp, ?_⟩
      intro a ha b hb
      rcases List.mem_singleton.mp hb with rfl
      calc a ≤ reportAt ((totalSteps outs.length : Nat) : ℚ) (0 + 2 * outs.length) :=
            (hbnd a ha).2
        _ = 100 := h100
  · rw [getLast?_cons_of_ne _ _ hrep_ne, hlast, h100]
  · intro x hx
    rw [List.dropLast_cons_of_ne_nil hrep_ne] at hx
    rcases List.mem_cons.mp hx with hx | hx
    · subst hx
      norm_num
    · have := hdrop x hx
      rw [h100] at this
      exact this

/-- C6 witness: a concrete two-slide run (one chart slide, one failed-image
slide). -/
theorem C6_progress_accounting_witness :
    ([VisualOutcome.chart (ChartData.mk .bar ["x"] []), VisualOutcome.imageFail] :
        List VisualOutcome) ≠ [] ∧
      (totalSteps ([VisualOutcome.chart (ChartData.mk .bar ["x"] []),
            VisualOutcome.imageFail] : List VisualOutcome).length =
          2 * ([VisualOutcome.chart (ChartData.mk .bar ["x"] []),
            VisualOutcome.imageFail] : List VisualOutcome).length ∧
        (progressTrace [VisualOutcome.chart (ChartData.mk .bar ["x"] []),
            VisualOutcome.imageFail]).Pairwise (· ≤ ·) ∧
        (0 :: pipelineReports
              ((totalSteps ([VisualOutcome.chart (ChartData.mk .bar ["x"] []),
                  VisualOutcome.imageFail] : List VisualOutcome).length : Nat) : ℚ)
              [VisualOutcome.chart (ChartData.mk .bar ["x"] []),
                VisualOutcome.imageFail] 0).getLast? = some 100 ∧
        ∀ x ∈ (0 :: pipelineReports
              ((totalSteps ([VisualOutcome.chart (ChartData.mk .bar ["x"] []),
                  VisualOutcome.imageFail] : List VisualOutcome).length : Nat) : ℚ)
              [VisualOutcome.chart (ChartData.mk .bar ["x"] []),
                VisualOutcome.imageFail] 0).dropLast,
          x < 100) :=
  ⟨by simp,
    C6_progress_accounting
      [VisualOutcome.chart (ChartData.mk .bar ["x"] []), VisualOutcome.imageFail]
      (by simp)⟩

/-- Helper: an environment that is not a content failure always yields an
updated slide. -/
theorem runSlide_isSome (s : Slide) (e : SlideEnv) (h : e ≠ SlideEnv.contentFail) :
    (runSlide s e).isSome := by
  cases e with
  | contentFail => exact absurd rfl h
  | content r img =>
      cases hc : r.chart with
      | none => cases img <;> simp [runSlide, hc]
      | some c => simp [runSlide, hc]

/-- Helper: when no content call fails, the loop completes and updates each
slide with its own environment. -/
theorem runSlides_ok :
    ∀ (slides : List Slide) (envs : List SlideEnv),
      slides.length = envs.length →
      (∀ e ∈ envs, e ≠ SlideEnv.contentFail) →
      ∃ out, runSlides slides envs = some out ∧ out.length = slides.length ∧
        ∀ (i : Nat) (sl : Slide) (ev : SlideEnv),
          slides[i]? = some sl → envs[i]? = some ev →
            out[i]? = runSlide sl ev
  | [], [], _, _ => ⟨[], rfl, rfl, by intro i sl ev h1 _; simp at h1⟩
  | [], e :: es, h, _ => by simp at h
  | s :: rest, [], h, _ => by simp at h
  | s :: rest, e :: es, h, hok => by
      obtain ⟨s', hs'⟩ :=
        Option.isSome_iff_exists.mp (runSlide_isSome s e (hok e (by simp)))
      obtain ⟨out, hout, hlen, hpt⟩ := runSlides_ok rest es (by simpa using h)
        (fun e' he' => hok e' (by simp [he']))
      refine ⟨s' :: out, ?_, by simp [hlen], ?_⟩
      · simp [runSlides, hs', hout]
      · intro i sl ev h1 h2
        cases i with
        | zero =>
            simp only [List.getElem?_cons_zero, Option.some.injEq] at h1 h2
            subst h1
            subst h2
            simpa using hs'.symm
        | succ n =>
            simp only [List.getElem?_cons_succ] at h1 h2 ⊢
            exact hpt n sl ev h1 h2

/-- Helper: a content failure anywhere in the loop's range aborts the whole
run. -/
theorem runSlides_abort :
    ∀ (slides : List Slide) (envs : List SlideEnv),
      slides.length = envs.length → SlideEnv.contentFail ∈ envs →
      runSlides slides envs = none
  | [], [], _, hmem => by simp at hmem
  | [], e :: es, h, _ => by simp at h
  | s :: rest, [], h, _ => by simp at h
  | s :: rest, e :: es, h, hmem => by
      by_cases he : e = SlideEnv.contentFail
      · subst he
        simp [runSlides, runSlide]
      · have hmem' : SlideEnv.contentFail ∈ es := by
          rcases List.mem_cons.mp hmem with hh | hh
          · exact absurd hh.symm he
          · exact hh
        obtain ⟨s', hs'⟩ := Option.isSome_iff_exists.mp (runSlide_isSome s e he)
        simp [runSlides, hs', runSlides_abort rest es (by simpa using h) hmem']

/-- C7.  Visual-failure locality: when every content call succeeds, the
pipeline lands on the presentation screen with one output slide per outline
point, and every slide whose image call failed (and whose response carried
no chart) ends with its visual sentinel set to `'error'` while the run
continues past it; by contrast a content failure anywhere aborts the whole
run back to the outline screen, and a Stage-1 failure returns to the prompt
screen. -/
theorem C7_visual_failure_locality (points : List String) (envs : List SlideEnv)
    (hlen : envs.length = points.length)
    (hok : ∀ e ∈ envs, e ≠ SlideEnv.contentFail) :
    (∃ out, handleGenerateSlidesFromOutline points envs = (.presentation, some out) ∧
        out.length = points.length ∧
        ∀ (i : Nat) (r : ContentResp),
          envs[i]? = some (SlideEnv.content r ImgResult.fail) → r.chart = none →
            ∃ sl, out[i]? = some sl ∧ sl.imageUrl = some "error") ∧
      (∀ envs2 : List SlideEnv, envs2.length = points.length →
        SlideEnv.contentFail ∈ envs2 →
        handleGenerateSlidesFromOutline points envs2 = (.outline, none)) ∧
      handleGenerateOutlines none = AppStep.prompt := by
  have hmaplen : (points.map initialSlide).length = envs.length := by
    simp [hlen]
  obtain ⟨out, hout, holen, hpt⟩ := runSlides_ok (points.map initialSlide) envs hmaplen hok
  refine ⟨⟨out, ?_, by simpa using holen, ?_⟩, ?_, rfl⟩
  · simp [handleGenerateSlidesFromOutline, hout]
  · intro i r henv hchart
    have hi : i < envs.length := by
      by_contra hh
      rw [List.getElem?_eq_none (by omega)] at henv
      exact Option.noConfusion henv
    obtain ⟨p, hp⟩ : ∃ p, points[i]? = some p := by
      have hip : i < points.length := by omega
      exact ⟨points[i], List.getElem?_eq_getElem hip⟩
    have hsl : (points.map initialSlide)[i]? = some (initialSlide p) := by
      rw [List.getElem?_map, hp]
      rfl
    have hval := hpt i (initialSlide p) _ hsl henv
    refine ⟨{ initialSlide p with
        content := r.content
        imagePrompt := r.imagePrompt
        imageUrl := some "error" }, ?_, rfl⟩
    rw [hval]
    simp [runSlide, hchart]
  · intro envs2 hlen2 hmem
    have habort : runSlides (points.map initialSlide) envs2 = none :=
      runSlides_abort _ _ (by simp [hlen2]) hmem
    simp [handleGenerateSlidesFromOutline, habort]

/-- C7 witness: a one-point outline whose single image call fails — the run
still reaches the presentation screen with the slide marked `'error'`. -/
theorem C7_visual_failure_locality_witness :
    ([SlideEnv.content (ContentResp.mk "t" ["b"] "p" none) ImgResult.fail] :
          List SlideEnv).length = (["Alpha"] : List String).length ∧
      (∀ e ∈ ([SlideEnv.content (ContentResp.mk "t" ["b"] "p" none) ImgResult.fail] :
          List SlideEnv), e ≠ SlideEnv.contentFail) ∧
      (∃ out, handleGenerateSlidesFromOutline ["Alpha"]
            [SlideEnv.content (ContentResp.mk "t" ["b"] "p" none) ImgResult.fail] =
            (.presentation, some out) ∧
          out.length = (["Alpha"] : List String).length ∧
          ∀ (i : Nat) (r : ContentResp),
            ([SlideEnv.content (ContentResp.mk "t" ["b"] "p" none) ImgResult.fail] :
                List SlideEnv)[i]? = some (SlideEnv.content r ImgResult.fail) →
              r.chart = none →
                ∃ sl, out[i]? = some sl ∧ sl.imageUrl = some "error") :=
  ⟨by decide, by decide,
    (C7_visual_failure_locality ["Alpha"]
        [SlideEnv.content (ContentResp.mk "t" ["b"] "p" none) ImgResult.fail]
        (by decide) (by decide)).1⟩

/-- C8 counterexample.  The enhance-wording success path mutates the target
Slide record through the shared reference (`updated[index].title = ...`): a
consumer holding the previous collection observes the change, so the
previous records are destructively aliased, contrary to the claim. -/
theorem C8_counterexample :
    viewDeck (handleEnhanceSlideStore false (Store.mk [demoSlide] [0]) 0 "New" ["x"]).heap
        (Store.mk [demoSlide] [0]).slideAddrs ≠
      viewDeck (Store.mk [demoSlide] [0]).heap (Store.mk [demoSlide] [0]).slideAddrs := by
  decide

/-- C8 (amended).  Per-mutation freshness and framing: a field edit through
`handleUpdateSlide` allocates a fresh record with exactly the target field
changed, repoints only the edited slot, and leaves every record of the
previous collection unchanged — a holder of the old collection observes no
change.  The enhance-wording success path also produces a new collection
and touches no other record, and it preserves every field of the target
except title and content (in particular any visual) — but it updates the
target record in place, so holders of the old collection observe that
slide's change (the counterexample); the claim's no-aliasing clause holds
only for the field-edit path. -/
theorem C8_mutation_framing (st : Store) (i : Nat) (fv : FieldVal) (a : Nat)
    (s : Slide) (ha : st.slideAddrs[i]? = some a) (hs : st.heap[a]? = some s)
    (hwf : ∀ b ∈ st.slideAddrs, b < st.heap.length) :
    (∀ (b : Nat), b < st.heap.length →
        (handleUpdateSlide false st i fv).heap[b]? = st.heap[b]?) ∧
      viewDeck (handleUpdateSlide false st i fv).heap st.slideAddrs =
        viewDeck st.heap st.slideAddrs ∧
      (∃ a2, (handleUpdateSlide false st i fv).slideAddrs[i]? = some a2 ∧
        (handleUpdateSlide false st i fv).heap[a2]? = some (setField s fv)) ∧
      (∀ (j : Nat), j ≠ i →
        (handleUpdateSlide false st i fv).slideAddrs[j]? = st.slideAddrs[j]?) ∧
      (getField (setField s fv) (fieldNameOf fv) = fv ∧
        ∀ (n : FieldName), n ≠ fieldNameOf fv →
          getField (setField s fv) n = getField s n) ∧
      (∀ (t : String) (c : List String),
        (handleEnhanceSlideStore false st i t c).slideAddrs = st.slideAddrs ∧
          (handleEnhanceSlideStore false st i t c).heap[a]? =
            some { s with title := t, content := c } ∧
          ∀ (b : Nat), b ≠ a →
            (handleEnhanceSlideStore false st i t c).heap[b]? = st.heap[b]?) := by
  have hupd : handleUpdateSlide false st i fv =
      { heap := st.heap ++ [setField s fv]
        slideAddrs := st.slideAddrs.set i st.heap.length } := by
    simp [handleUpdateSlide, ha, hs]
  have hil : i < st.slideAddrs.length := by
    by_contra hh
    rw [List.getElem?_eq_none (by omega)] at ha
    exact Option.noConfusion ha
  refine ⟨?_, ?_, ?_, ?_, ⟨?_, ?_⟩, ?_⟩
  · intro b hb
    rw [hupd]
    exact List.getElem?_append_left hb
  · rw [hupd]
    unfold viewDeck
    apply List.map_congr_left
    intro b hb
    exact List.getElem?_append_left (hwf b hb)
  · refine ⟨st.heap.length, ?_, ?_⟩
    · rw [hupd]
      exact List.getElem?_set_self hil
    · rw [hupd]
      exact List.getElem?_concat_length _ _
  · intro j hj
    rw [hupd]
    exact List.getElem?_set_ne (fun hh => hj hh.symm)
  · cases fv <;> rfl
  · intro n hn
    cases fv <;> cases n <;> first | exact absurd rfl hn | rfl
  · intro t c
    have henh : handleEnhanceSlideStore false st i t c =
        { heap := modifyAt st.heap a (fun s0 => { s0 with title := t, content := c })
          slideAddrs := st.slideAddrs } := by
      simp [handleEnhanceSlideStore, ha]
    have hal : a < st.heap.length := by
      by_contra hh
      rw [List.getElem?_eq_none (by omega)] at hs
      exact Option.noConfusion hs
    have hmod : modifyAt st.heap a (fun s0 => { s0 with title := t, content := c }) =
        st.heap.set a { s with title := t, content := c } := by
      unfold modifyAt
      rw [hs]
    refine ⟨by rw [henh], ?_, ?_⟩
    · rw [henh]
      show (modifyAt st.heap a _)[a]? = _
      rw [hmod]
      exact List.getElem?_set_self hal
    · intro b hb
      rw [henh]
      show (modifyAt st.heap a _)[b]? = _
      rw [hmod]
      exact List.getElem?_set_ne (fun hh => hb hh.symm)

/-- C8 witness: a title edit on a concrete one-slide store — the old
collection's view is unchanged. -/
theorem C8_mutation_framing_witness :
    (Store.mk [demoSlide] [0]).slideAddrs[0]? = some 0 ∧
      (Store.mk [demoSlide] [0]).heap[0]? = some demoSlide ∧
      (∀ b ∈ (Store.mk [demoSlide] [0]).slideAddrs,
        b < (Store.mk [demoSlide] [0]).heap.length) ∧
      viewDeck (handleUpdateSlide false (Store.mk [demoSlide] [0]) 0
            (FieldVal.title "T2")).heap (Store.mk [demoSlide] [0]).slideAddrs =
        viewDeck (Store.mk [demoSlide] [0]).heap (Store.mk [demoSlide] [0]).slideAddrs :=
  ⟨by decide, by decide, by decide,
    (C8_mutation_framing (Store.mk [demoSlide] [0]) 0 (FieldVal.title "T2") 0 demoSlide
      (by decide) (by decide) (by decide)).2.1⟩

/-- C9.  Enhance-wording safety: whenever the parse of the enhance response
yields zero bullet lines, the slide collection — in particular the target
slide's title and content — is left exactly as it was; no error state or
sentinel is installed (the code only logs a warning). -/
theorem C9_enhance_zero_bullets (ro : Bool) (slides : List Slide) (i : Nat)
    (resp : String) (s : Slide) (hs : slides[i]? = some s)
    (hz : (parseEnhanced resp s.title).2 = []) :
    handleEnhanceSlide ro slides i resp = slides := by
  cases ro with
  | true => rfl
  | false => simp [handleEnhanceSlide, hs, hz]

/-- C9 witness: a concrete response carrying a title line but no
dash-prefixed bullet lines leaves the concrete deck untouched. -/
theorem C9_enhance_zero_bullets_witness :
    demoDeck3[0]? = some demoSlide ∧
      (parseEnhanced "Title: Sharper Intro\nNo bullets today." demoSlide.title).2 = [] ∧
      handleEnhanceSlide false demoDeck3 0 "Title: Sharper Intro\nNo bullets today." =
        demoDeck3 :=
  ⟨by decide, by decide,
    C9_enhance_zero_bullets false demoDeck3 0 "Title: Sharper Intro\nNo bullets today."
      demoSlide (by decide) (by decide)⟩

/-- C10 counterexample.  The JSON value `null` parses successfully and is
missing the slides array, yet the load effect *does* clear the fragment:
the guard's `payload.slides` access throws a TypeError caught by the same
catch handler — so "the fragment is cleared only when base64 decoding or
JSON parsing throws" is false, and the parsed-but-deficient payload is not
always a no-op. -/
theorem C10_counterexample :
    (shareLoadEffect (.parsed .nullValue)
        (LoadState.mk .prompt false [] "dark" [] false)).hashCleared = true ∧
      shareLoadEffect (.parsed .nullValue)
          (LoadState.mk .prompt false [] "dark" [] false) ≠
        LoadState.mk .prompt false [] "dark" [] false := by
  decide

/-- C10 (amended).  Structurally deficient share payloads: when the
fragment decodes and parses to a *non-null* value on which the guard
`payload.slides && payload.theme` fails (slides array absent, or theme
absent/empty), the load effect changes nothing — no read-only mode, no
error, and no fragment clearing; the fragment is cleared exactly when
`atob` / `JSON.parse` throws or the parsed value is `null` (where the
guard's own property access throws inside the same `try`). -/
theorem C10_structural_decode_noop (p : RawPayload) (st : LoadState)
    (h : slidesTruthy p.slides = false ∨ optThemeTruthy p.theme = false) :
    shareLoadEffect (.parsed (.value p)) st = st ∧
      (shareLoadEffect (.parsed (.value p)) st).isReadOnlyView = st.isReadOnlyView ∧
      (shareLoadEffect (.parsed (.value p)) st).hashCleared = st.hashCleared ∧
      shareLoadEffect .throwsDuringDecode st = { st with hashCleared := true } ∧
      shareLoadEffect (.parsed .nullValue) st = { st with hashCleared := true } ∧
      (∀ (o : DecodeOutcome) (st2 : LoadState),
        (shareLoadEffect o st2).hashCleared = true →
          st2.hashCleared = true ∨ o = .throwsDuringDecode ∨
            o = .parsed .nullValue) := by
  have hguard : (slidesTruthy p.slides && optThemeTruthy p.theme) = false := by
    rcases h with h | h <;> simp [h]
  refine ⟨?_, ?_, ?_, rfl, rfl, ?_⟩
  · simp [shareLoadEffect, hguard]
  · simp [shareLoadEffect, hguard]
  · simp [shareLoadEffect, hguard]
  · intro o st2 hcl
    cases o with
    | noShareFragment => exact Or.inl hcl
    | throwsDuringDecode => exact Or.inr (Or.inl rfl)
    | parsed v =>
        cases v with
        | nullValue => exact Or.inr (Or.inr rfl)
        | value q =>
            left
            by_cases hq : (slidesTruthy q.slides && optThemeTruthy q.theme) = true
            · simpa [shareLoadEffect, hq] using hcl
            · simpa [shareLoadEffect, Bool.not_eq_true _ ▸ hq] using hcl

/-- C10 witness: a parsed non-null payload carrying a theme but no slides
array, on the initial authoring state. -/
theorem C10_structural_decode_noop_witness :
    (slidesTruthy (RawPayload.mk none (some "dark") none).slides = false ∨
        optThemeTruthy (RawPayload.mk none (some "dark") none).theme = false) ∧
      shareLoadEffect (.parsed (.value (RawPayload.mk none (some "dark") none)))
          (LoadState.mk .prompt false [] "dark" [] false) =
        LoadState.mk .prompt false [] "dark" [] false :=
  ⟨Or.inl (by decide),
    (C10_structural_decode_noop (RawPayload.mk none (some "dark") none)
      (LoadState.mk .prompt false [] "dark" [] false) (Or.inl (by decide))).1⟩

end SlideSpark
